import Mathlib

/-!
Verification development for the mediamantis media importer/organizer.

The Python sources are shallowly embedded: each Python function that the
properties below talk about is translated into an executable Lean
definition operating over explicit state (the filesystem is a list of
existing paths, the flaky remote sync tool is an oracle function).
Python strings are modelled as Lean `String`, with the Python `str`
methods implemented over the underlying character list so that the
kernel can evaluate them.
-/

namespace Mediamantis

/-- Models Python str.startswith. -/
def pyStartsWith (s p : String) : Bool := p.data.isPrefixOf s.data

/-- Models Python str.endswith. -/
def pyEndsWith (s p : String) : Bool := p.data.isSuffixOf s.data

/-- Models Python str.lower. -/
def pyLower (s : String) : String := ⟨s.data.map Char.toLower⟩

/-- Models Python str.split with a single-character separator. -/
def pySplitChar (c : Char) (s : String) : List String :=
  (s.data.splitOn c).map String.mk

/-- Models Python len on a string. -/
def pyLen (s : String) : Nat := s.data.length

/-- Models the Python slice s[n:]. -/
def pyDrop (n : Nat) (s : String) : String := ⟨s.data.drop n⟩

/-- Models os.path.join for two POSIX path components. -/
def posix_join (a b : String) : String :=
  if pyStartsWith b "/" then b
  else if a = "" || pyEndsWith a "/" then a ++ b
  else a ++ "/" ++ b

/-- mantistypes.MediaFileType. -/
inductive MediaFileType where
  | movie
  | picture
  | audio
  | unknown
deriving DecidableEq

/-- mantistypes.ArchiveStatus. -/
inductive ArchiveStatus where
  | completed
  | pending
deriving DecidableEq

/-- mantistypes.ImportStatus. -/
inductive ImportStatus where
  | completed
  | pending
  | already_exists
  | do_not_import
  | unimported
deriving DecidableEq

/-- mediafile.MediaFile, with the creation time kept as the raw numeric
timestamp (the derived creation_timestamp string is a function of it). -/
structure MediaFile where
  file_path : String
  file_name : String
  creation_time : Nat
  size_bytes : Nat
  file_type : MediaFileType
  archive_status : ArchiveStatus
  import_status : ImportStatus
  destination_path : Option String
  import_path : Option String
deriving DecidableEq

/-- settings.extensions, key pics. -/
def extensions_pics : List String :=
  ["aae", "bmp", "gif", "heic", "jpg", "jpeg", "png", "tif", "tiff"]

/-- settings.extensions, key vids. -/
def extensions_vids : List String :=
  ["avi", "3gp", "mov", "m4v", "mp4", "mpg", "wmv"]

/-- settings.extensions, key audio.  In settings.py the entries flac and
m4a are adjacent string literals with no comma between them, which Python
concatenates into the single entry written here as "flac" ++ "m4a". -/
def extensions_audio : List String :=
  ["aac", "flac" ++ "m4a", "m4p", "mp3", "wav", "webm", "wma"]

/-- settings.skip_items, key files. -/
def skip_items_files : List String := [".DS_Store"]

/-- settings.skip_items, key extensions. -/
def skip_items_extensions : List String := ["zip"]

/-- settings.skip_items, key prefixes. -/
def skip_items_prefixes : List String := ["._", "~"]

/-- settings.max_archive_size_bytes. -/
def max_archive_size_bytes : Nat := 2000000000

/-- One filesystem entry seen by the os.walk loop of Archiver.scan_archive. -/
structure FsEntry where
  dir_path : String
  name : String
  is_link : Bool
  size_bytes : Nat
  creation_time : Nat
deriving DecidableEq

/-- The skip decision of Archiver.scan_archive: a file is skipped when it
matches a skip filename exactly, starts with a skip prefix, or ends with a
skip extension. -/
def skip_file (f : String) : Bool :=
  (f ∈ skip_items_files) ||
    skip_items_prefixes.any (fun p => pyStartsWith f p) ||
    skip_items_extensions.any (fun x => pyEndsWith f x)

/-- The file-type classification of Archiver.scan_archive: the text after
the last dot of the full path, lowercased, looked up in the three
extension lists in order pics, vids, audio. -/
def classify_ext (file_path : String) : MediaFileType :=
  let ext := pyLower ((pySplitChar '.' file_path).getLastD "")
  if ext ∈ extensions_pics then .picture
  else if ext ∈ extensions_vids then .movie
  else if ext ∈ extensions_audio then .audio
  else .unknown

/-- Builds the MediaFile record that Archiver.scan_archive appends for one
kept filesystem entry. -/
def scan_entry (e : FsEntry) : MediaFile :=
  let file_path := posix_join e.dir_path e.name
  { file_path := file_path
    file_name := (pySplitChar '/' file_path).getLastD ""
    creation_time := e.creation_time
    size_bytes := e.size_bytes
    file_type := classify_ext file_path
    archive_status := .pending
    import_status := .pending
    destination_path := none
    import_path := none }

/-- Archiver.scan_archive: walk the tree, drop symbolic links and files
matching a skip rule, build a MediaFile per kept file, and sort the
result ascending by creation time (Python list.sort is a stable ascending
sort, modelled by insertion sort). -/
def scan_archive (entries : List FsEntry) : List MediaFile :=
  List.insertionSort (fun a b => a.creation_time ≤ b.creation_time)
    ((entries.filter (fun e => !e.is_link && !skip_file e.name)).map scan_entry)

/-- Total size in bytes of a list of media files; for the scan output this
is Archiver.archive_total_size. -/
def size_sum (files : List MediaFile) : Nat :=
  (files.map MediaFile.size_bytes).sum

/-- Archiver.verify_disk_space: true when three times the total scanned
size is strictly below the free disk space. -/
def verify_disk_space (archive_total_size free_disk_space : Nat) : Bool :=
  archive_total_size * 3 < free_disk_space

/-- Loop state of the bundling pass of Archiver.process_archive: bundles
closed so far, the open bundle (the current archive files directory),
archive_size_bytes, and last_timestamp (kept as the raw creation time;
Python keeps the formatted string, set and tested in the same places). -/
structure ArchState where
  closed : List (List MediaFile)
  cur : List MediaFile
  archive_size_bytes : Nat
  last_timestamp : Option Nat
deriving DecidableEq

/-- One iteration of the bundling loop of Archiver.process_archive: skip
records already archived; when archive_size_bytes exceeds the maximum,
close the current bundle (an error when last_timestamp was never set) and
open a fresh one; then move the file in, add its size, and record its
creation time as last_timestamp. -/
def process_step (maxB : Nat) (s : ArchState) (mf : MediaFile) : Except String ArchState :=
  if mf.archive_status = ArchiveStatus.completed then .ok s
  else if maxB < s.archive_size_bytes then
    match s.last_timestamp with
    | none => .error "Last timestamp not found to create archive directory name"
    | some _ =>
      .ok { closed := s.closed ++ [s.cur]
            cur := [mf]
            archive_size_bytes := mf.size_bytes
            last_timestamp := some mf.creation_time }
  else
    .ok { s with
          cur := s.cur ++ [mf]
          archive_size_bytes := s.archive_size_bytes + mf.size_bytes
          last_timestamp := some mf.creation_time }

/-- The iteration of the bundling loop of Archiver.process_archive over
the manifest, threading the loop state and propagating a raised error. -/
def process_loop (maxB : Nat) : ArchState → List MediaFile → Except String ArchState
  | s, [] => .ok s
  | s, mf :: rest =>
    match process_step maxB s mf with
    | .error e => .error e
    | .ok s2 => process_loop maxB s2 rest

/-- The bundling loop of Archiver.process_archive followed by the
unconditional close of the final bundle.  When no record was ever added
the final rename dereferences the unset last_timestamp, which in Python
fails; modelled as an error result. -/
def bundle_files (maxB : Nat) (files : List MediaFile) : Except String (List (List MediaFile)) :=
  match process_loop maxB ⟨[], [], 0, none⟩ files with
  | .error e => .error e
  | .ok final =>
    match final.last_timestamp with
    | none => .error "Last timestamp not found to create archive directory name"
    | some _ => .ok (final.closed ++ [final.cur])

/-- Archiver.process_archive on an already scanned manifest: return with
no bundles when no media files were found, fail when the disk space check
does not pass, otherwise run the bundling loop. -/
def process_archive (maxB free_disk_space : Nat) (files : List MediaFile) :
    Except String (List (List MediaFile)) :=
  if files.length < 1 then .ok []
  else if !verify_disk_space (size_sum files) free_disk_space then
    .error "Insufficient disk space available to create archives"
  else bundle_files maxB files

/-- A pending scanned picture record with a given creation time and size,
used as concrete input in the examples below. -/
def sample_media_file (t sz : Nat) : MediaFile :=
  { file_path := "/src/a.jpg"
    file_name := "a.jpg"
    creation_time := t
    size_bytes := sz
    file_type := .picture
    archive_status := .pending
    import_status := .pending
    destination_path := none
    import_path := none }

example : process_archive max_archive_size_bytes 100000000000
    [sample_media_file 100 900000000] = .ok [[sample_media_file 100 900000000]] := rfl

/-- Civil date from a count of days since 1970-01-01, by the standard
era-based closed form; used to model the datetime.fromtimestamp fields
that the importer formats (the platform local timezone offset is not
relevant to any property below and is taken as zero). -/
def civil_from_days (z0 : Nat) : Nat × Nat × Nat :=
  let z := z0 + 719468
  let era := z / 146097
  let doe := z % 146097
  let yoe := (doe - doe / 1460 + doe / 36524 - doe / 146096) / 365
  let y := yoe + era * 400
  let doy := doe - (365 * yoe + yoe / 4 - yoe / 100)
  let mp := (5 * doy + 2) / 153
  let d := doy - (153 * mp + 2) / 5 + 1
  let m := if mp < 10 then mp + 3 else mp - 9
  (if m ≤ 2 then y + 1 else y, m, d)

/-- Year field of a numeric timestamp. -/
def year_of (t : Nat) : Nat := (civil_from_days (t / 86400)).1

/-- Month field of a numeric timestamp. -/
def month_of (t : Nat) : Nat := (civil_from_days (t / 86400)).2.1

/-- Day-of-month field of a numeric timestamp. -/
def day_of (t : Nat) : Nat := (civil_from_days (t / 86400)).2.2

/-- Two-digit zero padding, as the strftime numeric fields use. -/
def pad2 (n : Nat) : String := if n < 10 then "0" ++ toString n else toString n

/-- The import file name time marker of Importer.import_media_file,
strftime format %Y-%m-%d_%H%M%S followed by an underscore. -/
def import_time_marker (t : Nat) : String :=
  toString (year_of t) ++ "-" ++ pad2 (month_of t) ++ "-" ++ pad2 (day_of t) ++ "_" ++
    pad2 (t % 86400 / 3600) ++ pad2 (t % 3600 / 60) ++ pad2 (t % 60) ++ "_"

/-- Target file name computation of Importer.import_media_file: prepend
the time marker unless the name already starts with it. -/
def target_name (t : Nat) (name : String) : String :=
  let marker := import_time_marker t
  if pyStartsWith name marker then name else marker ++ name

/-- Target path computation of Importer.import_media_file: the
destination root, then year, then year-month, then target file name. -/
def import_target_path (import_root_path : String) (mf : MediaFile) : String :=
  let y := toString (year_of mf.creation_time)
  let year_dir := posix_join import_root_path y
  let month_dir := posix_join year_dir (y ++ "-" ++ pad2 (month_of mf.creation_time))
  posix_join month_dir (target_name mf.creation_time mf.file_name)

/-- The per-kind destination roots used by Importer.import_media_file
(dirs.picture_dir, dirs.movie_dir, dirs.music_dir). -/
structure ImportDirs where
  picture_dir : String
  movie_dir : String
  music_dir : String
deriving DecidableEq

/-- Destination root choice of Importer.import_media_file; none for the
unknown kind, which is never imported. -/
def kind_root (dirs : ImportDirs) : MediaFileType → Option String
  | .picture => some dirs.picture_dir
  | .movie => some dirs.movie_dir
  | .audio => some dirs.music_dir
  | .unknown => none

/-- Mutable per-run state of Importer: the destination filesystem (the
set of target paths that exist) and the outcome counters. -/
structure ImportState where
  fs : List String
  file_import_count : Nat
  picture_import_count : Nat
  movie_import_count : Nat
  audio_import_count : Nat
  already_imported_count : Nat
  not_imported_count : Nat
  un_imported_count : Nat
deriving DecidableEq

/-- Fresh import state over a destination filesystem. -/
def init_import_state (fs : List String) : ImportState :=
  { fs := fs
    file_import_count := 0
    picture_import_count := 0
    movie_import_count := 0
    audio_import_count := 0
    already_imported_count := 0
    not_imported_count := 0
    un_imported_count := 0 }

/-- Importer.import_media_file: skip the provenance file, send unknown
kinds to do_not_import, compute the target path, then branch on target
existence and run mode exactly as the source does: an existing target
in import mode is already_exists with no copy, an existing target in
un-import mode is deleted and marked unimported, a missing target in un-import mode
is a no-op, and otherwise the file is copied and marked completed.
src_files lists the source paths that exist (the initial isfile check). -/
def import_media_file (dirs : ImportDirs) (un_import : Bool) (src_files : List String)
    (st : ImportState) (mf : MediaFile) : Except String (MediaFile × ImportState) :=
  if mf.file_path ∉ src_files then
    .error ("File not found to import: " ++ mf.file_path)
  else if mf.file_name = "archive.txt" then .ok (mf, st)
  else
    match kind_root dirs mf.file_type with
    | none =>
      .ok ({ mf with import_status := .do_not_import },
           { st with not_imported_count := st.not_imported_count + 1 })
    | some import_root_path =>
      let target_path := import_target_path import_root_path mf
      let mf := { mf with import_path := some target_path }
      if target_path ∈ st.fs then
        if un_import then
          .ok ({ mf with import_status := .unimported },
               { st with fs := st.fs.erase target_path
                         un_imported_count := st.un_imported_count + 1 })
        else
          .ok ({ mf with import_status := .already_exists },
               { st with already_imported_count := st.already_imported_count + 1 })
      else
        if un_import then .ok (mf, st)
        else
          let st := { st with fs := st.fs ++ [target_path] }
          let st :=
            match mf.file_type with
            | .picture => { st with picture_import_count := st.picture_import_count + 1 }
            | .movie => { st with movie_import_count := st.movie_import_count + 1 }
            | .audio => { st with audio_import_count := st.audio_import_count + 1 }
            | .unknown => st
          .ok ({ mf with import_status := .completed },
               { st with file_import_count := st.file_import_count + 1 })

/-- The per-file loop of Importer.process_import: records whose import
status is already terminal are skipped, unknown kinds are skipped, and
every other record goes through import_media_file, threading the state. -/
def import_run (dirs : ImportDirs) (un_import : Bool) (src_files : List String) :
    ImportState → List MediaFile → Except String (List MediaFile × ImportState)
  | st, [] => .ok ([], st)
  | st, mf :: rest =>
    if mf.import_status = .completed ∨ mf.import_status = .already_exists ∨
        mf.import_status = .do_not_import ∨ mf.import_status = .unimported then
      match import_run dirs un_import src_files st rest with
      | .error e => .error e
      | .ok (rest2, st2) => .ok (mf :: rest2, st2)
    else if mf.file_type = .unknown then
      match import_run dirs un_import src_files st rest with
      | .error e => .error e
      | .ok (rest2, st2) => .ok (mf :: rest2, st2)
    else
      match import_media_file dirs un_import src_files st mf with
      | .error e => .error e
      | .ok (mf2, st2) =>
        match import_run dirs un_import src_files st2 rest with
        | .error e => .error e
        | .ok (rest2, st3) => .ok (mf2 :: rest2, st3)

/-- The lines of the provenance file written by
Archiver.create_archive_info_file: the four fixed fields, and a Library
line exactly when a library was specified.  Each written line ends with a
newline, which readlines keeps. -/
def archive_info_lines (ver created_on created_from id_word : String)
    (library : Option String) : List String :=
  ["Created by mediamantis version: " ++ ver ++ "\n",
   "Created on: " ++ created_on ++ "\n",
   "Created from: " ++ created_from ++ "\n",
   "Using ID word: " ++ id_word ++ "\n"] ++
    (match library with
     | some b => ["Library: " ++ b ++ "\n"]
     | none => [])

/-- Python dict assignment d[k] = v on a keyed association list. -/
def dict_set (d : List (String × String)) (k v : String) : List (String × String) :=
  if d.any (fun kv => kv.1 = k) then
    d.map (fun kv => if kv.1 = k then (k, v) else kv)
  else d ++ [(k, v)]

/-- One line of the read loop of read_archive_text: each recognised
leading marker stores the text after the last colon of the line under its
field key. -/
def read_line_step (d : List (String × String)) (line : String) : List (String × String) :=
  let d := if pyStartsWith line "Created by mediamantis version:" then
    dict_set d "MantisVersion" ((pySplitChar ':' line).getLastD "") else d
  let d := if pyStartsWith line "Created on:" then
    dict_set d "CreatedOn" ((pySplitChar ':' line).getLastD "") else d
  let d := if pyStartsWith line "Created from:" then
    dict_set d "CreatedFrom" ((pySplitChar ':' line).getLastD "") else d
  let d := if pyStartsWith line "Using ID word:" then
    dict_set d "IdWord" ((pySplitChar ':' line).getLastD "") else d
  let d := if pyStartsWith line "Library:" then
    dict_set d "Library" ((pySplitChar ':' line).getLastD "") else d
  d

/-- archiver.read_archive_text on the list of file lines: collect the
recognised fields, then fail unless every collected key is among the four
required names (this is the check as written in the source), and default
the Library field afterwards. -/
def read_archive_text (lines : List String) :
    Except String (List (String × String)) :=
  let archive_data := lines.foldl read_line_step []
  if archive_data.all (fun kv => kv.1 ∈ ["MantisVersion", "CreatedOn", "CreatedFrom", "IdWord"]) then
    let archive_data :=
      if archive_data.any (fun kv => kv.1 = "Library") then archive_data
      else archive_data ++ [("Library", "default")]
    .ok archive_data
  else
    .error "Data missing from archive.txt file: MantisVersion, CreatedOn, CreatedFrom, or IdWord"

/-- One pending upload of MantisMega.get_pending_uploads: the local
completed import path and its computed remote path. -/
structure PendingUpload where
  import_path : String
  mega_path : String
deriving DecidableEq

/-- The loop body of MantisMega.get_pending_uploads, classifying one
completed import into the three accumulators (pending, already uploaded,
path root mismatch). -/
def gpu_step (media_import_root mega_root : String) (completed_uploads : List String)
    (acc : List PendingUpload × List String × List String) (ci : String) :
    List PendingUpload × List String × List String :=
  if !pyStartsWith ci media_import_root then
    (acc.1, acc.2.1, acc.2.2 ++ [ci])
  else
    let relative_path := pyDrop (pyLen media_import_root + 1) ci
    let mega_path := posix_join mega_root relative_path
    if mega_path ∈ completed_uploads then
      (acc.1, acc.2.1 ++ [ci], acc.2.2)
    else
      (acc.1 ++ [⟨ci, mega_path⟩], acc.2.1, acc.2.2)

/-- MantisMega.get_pending_uploads: classify each completed import, then
apply the sanity check of the source, which raises when the pending list
is longer than the completed imports list. -/
def get_pending_uploads (media_import_root mega_root : String)
    (completed_uploads completed_imports : List String) :
    Except String (List PendingUpload × List String × List String) :=
  let r := completed_imports.foldl (gpu_step media_import_root mega_root completed_uploads)
    ([], [], [])
  if ((completed_imports.length : Int) - r.1.length) < 0 then
    .error "There are more pending uploads than completed imports, something is not right"
  else .ok r

/-- Oracle for the external MegaCMD tool: the outcome of the existence
probe and of the upload for a given remote path on a given attempt
number.  An error value is a raised MegaError (the transient failure that
the retry loop reacts to by killing the server and retrying). -/
structure MegaRemote where
  ls_result : String → Nat → Except Unit Bool
  put_result : String → Nat → Except Unit Unit

/-- The bounded retry loop of MantisMega.sync_mantis_imports: attempts
are numbered from one; the first non-failing attempt wins, and exceeding
max_attempts gives up with none. -/
def retry_attempts {α : Type} (f : Nat → Except Unit α) (max_attempts : Nat) : Option α :=
  (List.range' 1 max_attempts).findSome? (fun n => (f n).toOption)

/-- Running state of the per-item loop of sync_mantis_imports. -/
structure SyncState where
  completed_uploads : List String
  failed_uploads : List PendingUpload
  found_mega_paths : List String
  upload_count : Nat
deriving DecidableEq

/-- One iteration of the loop of MantisMega.sync_mantis_imports: probe
remote existence through the retry loop; on probe exhaustion record a
failure; on a pre-existing remote path record it as found; otherwise
upload through the retry loop, recording a failure on exhaustion; every
non-failed item appends its remote path to the completed uploads list
(which the source persists immediately after each item). -/
def sync_item (remote : MegaRemote) (st : SyncState) (pu : PendingUpload) : SyncState :=
  let st := { st with upload_count := st.upload_count + 1 }
  match retry_attempts (remote.ls_result pu.mega_path) 10 with
  | none => { st with failed_uploads := st.failed_uploads ++ [pu] }
  | some remote_path_exists =>
    if remote_path_exists then
      { st with found_mega_paths := st.found_mega_paths ++ [pu.mega_path]
                completed_uploads := st.completed_uploads ++ [pu.mega_path] }
    else
      match retry_attempts (remote.put_result pu.mega_path) 10 with
      | none => { st with failed_uploads := st.failed_uploads ++ [pu] }
      | some _ => { st with completed_uploads := st.completed_uploads ++ [pu.mega_path] }

/-- MantisMega.sync_mantis_imports over the reconciliation inputs:
compute the pending set, return early with nothing written when it is
empty, otherwise process every pending item and persist the deduplicated
completed uploads list (write_completed_uploads stores list(set(...));
the set is modelled as an order-preserving deduplication, and the
properties below only depend on its membership).  Returns the failed
uploads and the persisted ledger content. -/
def sync_mantis_imports (media_import_root mega_root : String) (remote : MegaRemote)
    (completed_imports completed_uploads : List String) :
    Except String (List PendingUpload × List String) :=
  match get_pending_uploads media_import_root mega_root completed_uploads completed_imports with
  | .error e => .error e
  | .ok (pending_uploads, _already, _not_found) =>
    if pending_uploads.length = 0 then
      .ok ([], completed_uploads)
    else
      let stF := pending_uploads.foldl (sync_item remote) ⟨completed_uploads, [], [], 0⟩
      .ok (stF.failed_uploads, stF.completed_uploads.eraseDups)

theorem size_sum_append (l1 l2 : List MediaFile) :
    size_sum (l1 ++ l2) = size_sum l1 + size_sum l2 := by
  simp [size_sum]

/-- Invariant of the bundling loop: the size counter equals the size of
the open bundle, the open bundle without its last member fits under the
maximum, and every closed bundle exceeds the maximum while fitting under
it without its last member. -/
def BundleInv (maxB : Nat) (s : ArchState) : Prop :=
  s.archive_size_bytes = size_sum s.cur ∧
  size_sum s.cur.dropLast ≤ maxB ∧
  ∀ b ∈ s.closed, maxB < size_sum b ∧ size_sum b.dropLast ≤ maxB

theorem process_step_inv {maxB : Nat} {s : ArchState} {mf : MediaFile} {s2 : ArchState}
    (hinv : BundleInv maxB s) (h : process_step maxB s mf = .ok s2) :
    BundleInv maxB s2 := by
  obtain ⟨hsize, hdrop, hclosed⟩ := hinv
  by_cases hskip : mf.archive_status = ArchiveStatus.completed
  · unfold process_step at h
    rw [if_pos hskip] at h
    cases h
    exact ⟨hsize, hdrop, hclosed⟩
  · by_cases hover : maxB < s.archive_size_bytes
    · unfold process_step at h
      rw [if_neg hskip, if_pos hover] at h
      cases hts : s.last_timestamp with
      | none => rw [hts] at h; exact Except.noConfusion h
      | some t =>
        rw [hts] at h
        cases h
        refine ⟨by simp [size_sum], by simp [size_sum], ?_⟩
        intro b hb
        have hb2 : b ∈ s.closed ++ [s.cur] := hb
        rcases List.mem_append.mp hb2 with hb3 | hb3
        · exact hclosed b hb3
        · rw [List.mem_singleton.mp hb3]
          exact ⟨hsize ▸ hover, hdrop⟩
    · unfold process_step at h
      rw [if_neg hskip, if_neg hover] at h
      cases h
      refine ⟨?_, ?_, ?_⟩
      · simp [size_sum_append, size_sum, hsize]
      · show size_sum (s.cur ++ [mf]).dropLast ≤ maxB
        rw [List.dropLast_concat]
        exact hsize ▸ Nat.le_of_not_lt hover
      · exact hclosed

theorem process_loop_inv (maxB : Nat) :
    ∀ (files : List MediaFile) (s s2 : ArchState),
      BundleInv maxB s → process_loop maxB s files = .ok s2 →
      BundleInv maxB s2 := by
  intro files
  induction files with
  | nil =>
    intro s s2 hinv h
    cases h
    exact hinv
  | cons mf rest ih =>
    intro s s2 hinv h
    unfold process_loop at h
    split at h
    · exact Except.noConfusion h
    · rename_i s1 hstep
      exact ih s1 s2 (process_step_inv hinv hstep) h

theorem process_loop_flatten (maxB : Nat) :
    ∀ (files : List MediaFile) (s s2 : ArchState),
      (∀ mf ∈ files, mf.archive_status = .pending) →
      process_loop maxB s files = .ok s2 →
      s2.closed.flatten ++ s2.cur = s.closed.flatten ++ s.cur ++ files := by
  intro files
  induction files with
  | nil =>
    intro s s2 _ h
    cases h
    simp
  | cons mf rest ih =>
    intro s s2 hpend h
    unfold process_loop at h
    split at h
    · exact Except.noConfusion h
    · rename_i s1 hstep
      have hrest := ih s1 s2 (fun x hx => hpend x (List.mem_cons_of_mem _ hx)) h
      have hmf : mf.archive_status = .pending := hpend mf (List.mem_cons_self mf rest)
      have hstep2 : s1.closed.flatten ++ s1.cur = s.closed.flatten ++ s.cur ++ [mf] := by
        unfold process_step at hstep
        rw [if_neg (by simp [hmf])] at hstep
        split at hstep
        · split at hstep
          · exact Except.noConfusion hstep
          · cases hstep
            simp [List.flatten_append]
        · cases hstep
          simp [List.append_assoc]
      rw [hrest, hstep2]
      simp [List.append_assoc]

/-- C1: with three records of 900,000,000 bytes at increasing capture
times and the configured maximum of 2,000,000,000 bytes, the bundling
pass of process_archive yields a single bundle holding all three
records: the strict greater-than close check on the pre-add running
total of 1,800,000,000 never fires. -/
theorem process_archive_three_files_one_bundle :
    max_archive_size_bytes = 2000000000 ∧
    process_archive max_archive_size_bytes 100000000000
      [sample_media_file 100 900000000, sample_media_file 200 900000000,
       sample_media_file 300 900000000] =
      .ok [[sample_media_file 100 900000000, sample_media_file 200 900000000,
            sample_media_file 300 900000000]] :=
  ⟨rfl, rfl⟩

/-- C2: on any time-sorted manifest, every bundle that the bundling pass
of process_archive closes mid-run has a byte size that strictly exceeds
the configured maximum at the moment of the close decision, and exceeds
it by at most the size of its last-added member. -/
theorem bundles_closed_lazily (maxB free : Nat) (files : List MediaFile)
    (bundles : List (List MediaFile))
    (_hsorted : files.Pairwise (fun a b => a.creation_time ≤ b.creation_time))
    (hrun : process_archive maxB free files = .ok bundles) :
    ∀ b ∈ bundles.dropLast, maxB < size_sum b ∧
      ∃ hne : b ≠ [], size_sum b ≤ maxB + (b.getLast hne).size_bytes := by
  unfold process_archive at hrun
  split at hrun
  · cases hrun
    simp
  · split at hrun
    · exact Except.noConfusion hrun
    · unfold bundle_files at hrun
      split at hrun
      · exact Except.noConfusion hrun
      · rename_i final hfold
        have hinv := process_loop_inv maxB files ⟨[], [], 0, none⟩ final
          ⟨by simp [size_sum], by simp [size_sum], by simp⟩ hfold
        split at hrun
        · exact Except.noConfusion hrun
        · cases hrun
          rw [List.dropLast_concat]
          intro b hb
          obtain ⟨hgt, hfit⟩ := hinv.2.2 b hb
          have hne : b ≠ [] := by
            intro hnil
            rw [hnil] at hgt
            simp [size_sum] at hgt
          refine ⟨hgt, hne, ?_⟩
          calc size_sum b = size_sum (b.dropLast ++ [b.getLast hne]) := by
                rw [List.dropLast_append_getLast hne]
            _ = size_sum b.dropLast + (b.getLast hne).size_bytes := by
                simp [size_sum_append, size_sum]
            _ ≤ maxB + (b.getLast hne).size_bytes := Nat.add_le_add_right hfit _

theorem bundles_closed_lazily_witness :
    10 < size_sum [sample_media_file 1 6, sample_media_file 2 6] ∧
    ∃ hne : ([sample_media_file 1 6, sample_media_file 2 6] : List MediaFile) ≠ [],
      size_sum [sample_media_file 1 6, sample_media_file 2 6] ≤
        10 + (([sample_media_file 1 6,
                sample_media_file 2 6] : List MediaFile).getLast hne).size_bytes :=
  bundles_closed_lazily 10 1000
    [sample_media_file 1 6, sample_media_file 2 6, sample_media_file 3 1]
    [[sample_media_file 1 6, sample_media_file 2 6], [sample_media_file 3 1]]
    (by decide) rfl
    [sample_media_file 1 6, sample_media_file 2 6] (by simp)

/-- C3: every scanned regular file that is not a symbolic link and
matches no skip rule lands in exactly one bundle: the concatenation of
the bundles is the scanned manifest itself, and the record count across
bundles equals the number of walked entries minus symbolic links and
skip-rule matches. -/
theorem scan_records_assigned_exactly_once (entries : List FsEntry) (maxB free : Nat)
    (bundles : List (List MediaFile))
    (hrun : process_archive maxB free (scan_archive entries) = .ok bundles) :
    bundles.flatten = scan_archive entries ∧
    (bundles.map List.length).sum =
      (entries.filter (fun e => !e.is_link && !skip_file e.name)).length := by
  have hlen : (scan_archive entries).length =
      (entries.filter (fun e => !e.is_link && !skip_file e.name)).length := by
    unfold scan_archive
    rw [(List.perm_insertionSort _ _).length_eq, List.length_map]
  have hpend : ∀ mf ∈ scan_archive entries, mf.archive_status = .pending := by
    intro mf hmf
    unfold scan_archive at hmf
    have hmem := (List.perm_insertionSort _ _).mem_iff.mp hmf
    obtain ⟨e, _, hfe⟩ := List.mem_map.mp hmem
    rw [← hfe]
    rfl
  unfold process_archive at hrun
  split at hrun
  · rename_i hemp
    cases hrun
    have hnil : scan_archive entries = [] :=
      List.length_eq_zero.mp (Nat.lt_one_iff.mp hemp)
    rw [hnil] at hlen ⊢
    exact ⟨rfl, by rw [← hlen]; rfl⟩
  · split at hrun
    · exact Except.noConfusion hrun
    · unfold bundle_files at hrun
      split at hrun
      · exact Except.noConfusion hrun
      · rename_i final hfold
        split at hrun
        · exact Except.noConfusion hrun
        · cases hrun
          have hflat := process_loop_flatten maxB (scan_archive entries)
            ⟨[], [], 0, none⟩ final hpend hfold
          simp only [List.flatten_nil, List.nil_append] at hflat
          constructor
          · rw [List.flatten_append]
            simpa using hflat
          · rw [← List.length_flatten, List.flatten_append]
            simp only [List.flatten_cons, List.flatten_nil, List.append_nil]
            rw [hflat, hlen]

theorem scan_records_assigned_exactly_once_witness :
    ([[scan_entry ⟨"/src", "a.jpg", false, 5, 10⟩,
       scan_entry ⟨"/src", "b.mov", false, 7, 20⟩]] : List (List MediaFile)).flatten =
      scan_archive [⟨"/src", "a.jpg", false, 5, 10⟩, ⟨"/src", "link.jpg", true, 5, 11⟩,
        ⟨"/src", ".DS_Store", false, 1, 12⟩, ⟨"/src", "b.mov", false, 7, 20⟩] ∧
    (([[scan_entry ⟨"/src", "a.jpg", false, 5, 10⟩,
        scan_entry ⟨"/src", "b.mov", false, 7, 20⟩]] : List (List MediaFile)).map
      List.length).sum =
      (([⟨"/src", "a.jpg", false, 5, 10⟩, ⟨"/src", "link.jpg", true, 5, 11⟩,
         ⟨"/src", ".DS_Store", false, 1, 12⟩, ⟨"/src", "b.mov", false, 7, 20⟩] :
        List FsEntry).filter (fun e => !e.is_link && !skip_file e.name)).length :=
  scan_records_assigned_exactly_once
    [⟨"/src", "a.jpg", false, 5, 10⟩, ⟨"/src", "link.jpg", true, 5, 11⟩,
     ⟨"/src", ".DS_Store", false, 1, 12⟩, ⟨"/src", "b.mov", false, 7, 20⟩]
    max_archive_size_bytes 1000000
    [[scan_entry ⟨"/src", "a.jpg", false, 5, 10⟩, scan_entry ⟨"/src", "b.mov", false, 7, 20⟩]]
    rfl

/-- C4: the classifier examples as the code actually behaves.  The
picture, movie, text and skip examples follow the claim, but track.flac
classifies as unknown, not audio: the audio extension list of
settings.py contains the single accidental entry flacm4a (two adjacent
string literals missing a comma), so neither flac nor m4a is a known
audio extension. -/
theorem classifier_examples_flac_misclassified :
    classify_ext "IMG_0001.JPG" = .picture ∧
    classify_ext "IMG_0001.jpg" = .picture ∧
    classify_ext "img.HEIC" = .picture ∧
    classify_ext "clip.MOV" = .movie ∧
    classify_ext "clip.mp4" = .movie ∧
    classify_ext "notes.txt" = .unknown ∧
    classify_ext "track.flac" = .unknown ∧
    classify_ext "song.m4a" = .unknown ∧
    ("flac" ∉ extensions_audio ∧ "m4a" ∉ extensions_audio ∧
      "flac" ++ "m4a" ∈ extensions_audio) ∧
    skip_file ".DS_Store" = true ∧
    skip_file "._IMG_0001.jpg" = true ∧
    skip_file "~clip.mov" = true :=
  ⟨rfl, rfl, rfl, rfl, rfl, rfl, rfl, rfl, by decide, rfl, rfl, rfl⟩

/-- C7: evaluation of the provenance file round trip.  When a library
was specified at archive time the written file holds the Library line,
but reading it back always fails with the missing-data error, because
the required-field check of read_archive_text tests that every collected
key is among the four required names instead of the converse; for the
same reason a file missing every required field is accepted without any
error.  The no-library file round-trips with the defaulted Library
field. -/
theorem read_archive_text_inverted_check :
    read_archive_text
        (archive_info_lines "0.0.1" "20200101-000000" "/media/src" "word" (some "family")) =
      .error "Data missing from archive.txt file: MantisVersion, CreatedOn, CreatedFrom, or IdWord" ∧
    read_archive_text
        (archive_info_lines "0.0.1" "20200101-000000" "/media/src" "word" none) =
      .ok [("MantisVersion", " 0.0.1\n"), ("CreatedOn", " 20200101-000000\n"),
           ("CreatedFrom", " /media/src\n"), ("IdWord", " word\n"), ("Library", "default")] ∧
    read_archive_text ["Created on: x\n"] = .ok [("CreatedOn", " x\n"), ("Library", "default")] :=
  ⟨rfl, rfl, rfl⟩

/-- C8 counterexample: one scanned file of one byte with exactly three
bytes free.  At least three times the manifest size is free, yet
process_archive raises the insufficient disk space error, because
verify_disk_space requires strictly more than three times the total. -/
theorem disk_space_at_exact_triple_cex :
    3 * size_sum [sample_media_file 1 1] ≤ 3 ∧
    verify_disk_space (size_sum [sample_media_file 1 1]) 3 = false ∧
    process_archive max_archive_size_bytes 3 [sample_media_file 1 1] =
      .error "Insufficient disk space available to create archives" :=
  ⟨by decide, rfl, rfl⟩

/-- C8 (amended): on a non-empty manifest, process_archive raises the
insufficient disk space error exactly when the free space is at most
three times the total manifest size, and the check decides the run
before the bundling loop: in the failing case the result is the disk
space error with no move attempted, and otherwise process_archive is
exactly the bundling pass. -/
theorem disk_space_check_fail_fast (maxB free : Nat) (files : List MediaFile)
    (hne : files ≠ []) :
    (free ≤ 3 * size_sum files →
      process_archive maxB free files =
        .error "Insufficient disk space available to create archives") ∧
    (3 * size_sum files < free →
      process_archive maxB free files = bundle_files maxB files) := by
  have hlen : ¬ files.length < 1 := by
    cases files with
    | nil => exact absurd rfl hne
    | cons a l => simp
  constructor
  · intro hle
    have hv : verify_disk_space (size_sum files) free = false := by
      unfold verify_disk_space
      simp only [decide_eq_false_iff_not]
      omega
    unfold process_archive
    rw [if_neg hlen, hv]
    simp
  · intro hlt
    have hv : verify_disk_space (size_sum files) free = true := by
      unfold verify_disk_space
      simp only [decide_eq_true_eq]
      omega
    unfold process_archive
    rw [if_neg hlen, hv]
    simp

theorem disk_space_check_fail_fast_witness :
    process_archive 2000000000 2 [sample_media_file 1 1] =
      .error "Insufficient disk space available to create archives" :=
  (disk_space_check_fail_fast 2000000000 2 [sample_media_file 1 1] (by decide)).1 (by decide)

theorem gpu_fold_counts (root mroot : String) (ups : List String) :
    ∀ (imps : List String) (acc : List PendingUpload × List String × List String),
      (imps.foldl (gpu_step root mroot ups) acc).1.length +
        ((imps.foldl (gpu_step root mroot ups) acc).2.1.length +
          (imps.foldl (gpu_step root mroot ups) acc).2.2.length) =
      acc.1.length + (acc.2.1.length + (acc.2.2.length + imps.length)) := by
  intro imps
  induction imps with
  | nil => intro acc; simp
  | cons ci rest ih =>
    intro acc
    rw [List.foldl_cons, ih (gpu_step root mroot ups acc ci)]
    have hstep : (gpu_step root mroot ups acc ci).1.length +
        ((gpu_step root mroot ups acc ci).2.1.length +
          (gpu_step root mroot ups acc ci).2.2.length) =
        acc.1.length + (acc.2.1.length + (acc.2.2.length + 1)) := by
      simp only [gpu_step]
      split
      · simp
      · split
        · simp
          omega
        · simp
          omega
    simp only [List.length_cons]
    omega

/-- C10: for all inputs, get_pending_uploads classifies each completed
imported path into exactly one of its three output lists, so the pending list
is never longer than the completed imports list and the sanity-check
error branch that would raise a MegaError is unreachable. -/
theorem get_pending_uploads_never_errors (media_import_root mega_root : String)
    (completed_uploads completed_imports : List String) :
    ∃ pend already not_found,
      get_pending_uploads media_import_root mega_root completed_uploads completed_imports =
        .ok (pend, already, not_found) ∧
      pend.length ≤ completed_imports.length := by
  have hcount := gpu_fold_counts media_import_root mega_root completed_uploads
    completed_imports ([], [], [])
  set r := completed_imports.foldl (gpu_step media_import_root mega_root completed_uploads)
    ([], [], []) with hr
  refine ⟨r.1, r.2.1, r.2.2, ?_, ?_⟩
  · unfold get_pending_uploads
    rw [← hr]
    rw [if_neg ?_]
    · simp at hcount ⊢
      omega
  · simp at hcount
    omega

theorem pyStartsWith_append (p s : String) : pyStartsWith (p ++ s) p = true := by
  simp [pyStartsWith, String.data_append, List.isPrefixOf_iff_prefix]

theorem target_name_idem (t : Nat) (name : String) :
    target_name t (target_name t name) = target_name t name := by
  simp only [target_name]
  by_cases h : pyStartsWith name (import_time_marker t) = true
  · rw [if_pos h, if_pos h]
  · rw [if_neg h, if_pos (pyStartsWith_append _ _)]

theorem import_media_file_skip_info {dirs : ImportDirs} {un_import : Bool}
    {src_files : List String} {st : ImportState} {mf : MediaFile}
    (hsrc : mf.file_path ∈ src_files) (hname : mf.file_name = "archive.txt") :
    import_media_file dirs un_import src_files st mf = .ok (mf, st) := by
  simp [import_media_file, hsrc, hname]

theorem import_media_file_already {dirs : ImportDirs} {src_files : List String}
    {st : ImportState} {mf : MediaFile} {root : String}
    (hsrc : mf.file_path ∈ src_files) (hname : mf.file_name ≠ "archive.txt")
    (hroot : kind_root dirs mf.file_type = some root)
    (hfs : import_target_path root mf ∈ st.fs) :
    import_media_file dirs false src_files st mf =
      .ok ({ mf with import_path := some (import_target_path root mf),
                     import_status := .already_exists },
           { st with already_imported_count := st.already_imported_count + 1 }) := by
  simp [import_media_file, hsrc, hname, hroot, hfs]

theorem import_media_file_unimport_present {dirs : ImportDirs} {src_files : List String}
    {st : ImportState} {mf : MediaFile} {root : String}
    (hsrc : mf.file_path ∈ src_files) (hname : mf.file_name ≠ "archive.txt")
    (hroot : kind_root dirs mf.file_type = some root)
    (hfs : import_target_path root mf ∈ st.fs) :
    import_media_file dirs true src_files st mf =
      .ok ({ mf with import_path := some (import_target_path root mf),
                     import_status := .unimported },
           { st with fs := st.fs.erase (import_target_path root mf),
                     un_imported_count := st.un_imported_count + 1 }) := by
  simp [import_media_file, hsrc, hname, hroot, hfs]

theorem import_media_file_unimport_absent {dirs : ImportDirs} {src_files : List String}
    {st : ImportState} {mf : MediaFile} {root : String}
    (hsrc : mf.file_path ∈ src_files) (hname : mf.file_name ≠ "archive.txt")
    (hroot : kind_root dirs mf.file_type = some root)
    (hfs : import_target_path root mf ∉ st.fs) :
    import_media_file dirs true src_files st mf =
      .ok ({ mf with import_path := some (import_target_path root mf) }, st) := by
  simp [import_media_file, hsrc, hname, hroot, hfs]

theorem status_pending_of_not_skip {mf : MediaFile}
    (h : ¬(mf.import_status = .completed ∨ mf.import_status = .already_exists ∨
        mf.import_status = .do_not_import ∨ mf.import_status = .unimported)) :
    mf.import_status = .pending := by
  cases hst : mf.import_status <;> simp [hst] at h ⊢

theorem kind_root_some_of_known (dirs : ImportDirs) {t : MediaFileType}
    (h : t ≠ .unknown) : kind_root dirs t = some ((kind_root dirs t).getD "") := by
  cases t <;> simp [kind_root] at h ⊢

theorem import_run_all_present (dirs : ImportDirs) (src_files : List String) :
    ∀ (files : List MediaFile) (st : ImportState),
      (∀ mf ∈ files, mf.import_status = .pending) →
      (∀ mf ∈ files, mf.file_path ∈ src_files) →
      (∀ mf ∈ files, mf.file_name ≠ "archive.txt" → mf.file_type ≠ .unknown →
        import_target_path ((kind_root dirs mf.file_type).getD "") mf ∈ st.fs) →
      ∃ files2 st2, import_run dirs false src_files st files = .ok (files2, st2) ∧
        st2.fs = st.fs ∧ st2.file_import_count = st.file_import_count ∧
        ∀ mf2 ∈ files2, mf2.file_name ≠ "archive.txt" → mf2.file_type ≠ .unknown →
          mf2.import_status = .already_exists := by
  intro files
  induction files with
  | nil =>
    intro st _ _ _
    exact ⟨[], st, rfl, rfl, rfl, by simp⟩
  | cons mf rest ih =>
    intro st hpend hsrc himp
    have hmf : mf.import_status = .pending := hpend mf (List.mem_cons_self mf rest)
    have hnotskip : ¬(mf.import_status = .completed ∨ mf.import_status = .already_exists ∨
        mf.import_status = .do_not_import ∨ mf.import_status = .unimported) := by
      simp [hmf]
    by_cases hunk : mf.file_type = .unknown
    · obtain ⟨rest2, st2, hrun, hfs2, hcnt2, hstat2⟩ := ih st
        (fun x hx => hpend x (List.mem_cons_of_mem _ hx))
        (fun x hx => hsrc x (List.mem_cons_of_mem _ hx))
        (fun x hx => himp x (List.mem_cons_of_mem _ hx))
      refine ⟨mf :: rest2, st2, ?_, hfs2, hcnt2, ?_⟩
      · unfold import_run
        rw [if_neg hnotskip, if_pos hunk, hrun]
      · intro mf2 hmf2 hname2 hunk2
        rcases List.mem_cons.mp hmf2 with h | h
        · exact absurd (h ▸ hunk) hunk2
        · exact hstat2 mf2 h hname2 hunk2
    · by_cases hname : mf.file_name = "archive.txt"
      · obtain ⟨rest2, st2, hrun, hfs2, hcnt2, hstat2⟩ := ih st
          (fun x hx => hpend x (List.mem_cons_of_mem _ hx))
          (fun x hx => hsrc x (List.mem_cons_of_mem _ hx))
          (fun x hx => himp x (List.mem_cons_of_mem _ hx))
        refine ⟨mf :: rest2, st2, ?_, hfs2, hcnt2, ?_⟩
        · unfold import_run
          rw [if_neg hnotskip, if_neg hunk,
            import_media_file_skip_info (hsrc mf (List.mem_cons_self mf rest)) hname]
          simp only [hrun]
        · intro mf2 hmf2 hname2 hunk2
          rcases List.mem_cons.mp hmf2 with h | h
          · exact absurd (h ▸ hname) hname2
          · exact hstat2 mf2 h hname2 hunk2
      · have hroot := kind_root_some_of_known dirs hunk
        have hfile := import_media_file_already
          (hsrc mf (List.mem_cons_self mf rest)) hname hroot
          (himp mf (List.mem_cons_self mf rest) hname hunk)
        obtain ⟨rest2, st2, hrun, hfs2, hcnt2, hstat2⟩ := ih
          { st with already_imported_count := st.already_imported_count + 1 }
          (fun x hx => hpend x (List.mem_cons_of_mem _ hx))
          (fun x hx => hsrc x (List.mem_cons_of_mem _ hx))
          (fun x hx => himp x (List.mem_cons_of_mem _ hx))
        refine ⟨{ mf with
            import_path := some (import_target_path ((kind_root dirs mf.file_type).getD "") mf),
            import_status := .already_exists } :: rest2, st2, ?_, hfs2, hcnt2, ?_⟩
        · unfold import_run
          rw [if_neg hnotskip, if_neg hunk, hfile]
          simp only [hrun]
        · intro mf2 hmf2 hname2 hunk2
          rcases List.mem_cons.mp hmf2 with h | h
          · rw [h]
          · exact hstat2 mf2 h hname2 hunk2

/-- C5: re-running the importer over an already fully imported source is
pure recognition: the target-name computation is idempotent, and when
every target path of a media record already exists at the destination,
the run succeeds, copies nothing (the destination filesystem and the
copy counter are unchanged), and marks every media record
already_exists. -/
theorem import_rerun_idempotent (dirs : ImportDirs) (src_files fs0 : List String)
    (files : List MediaFile)
    (hpend : ∀ mf ∈ files, mf.import_status = .pending)
    (hsrc : ∀ mf ∈ files, mf.file_path ∈ src_files)
    (himp : ∀ mf ∈ files, mf.file_name ≠ "archive.txt" → mf.file_type ≠ .unknown →
      import_target_path ((kind_root dirs mf.file_type).getD "") mf ∈ fs0) :
    (∀ t name, target_name t (target_name t name) = target_name t name) ∧
    ∃ files2 st2,
      import_run dirs false src_files (init_import_state fs0) files = .ok (files2, st2) ∧
      st2.fs = fs0 ∧ st2.file_import_count = 0 ∧
      ∀ mf2 ∈ files2, mf2.file_name ≠ "archive.txt" → mf2.file_type ≠ .unknown →
        mf2.import_status = .already_exists := by
  refine ⟨fun t name => target_name_idem t name, ?_⟩
  exact import_run_all_present dirs src_files files (init_import_state fs0) hpend hsrc himp

theorem import_rerun_idempotent_witness :
    (∀ t name, target_name t (target_name t name) = target_name t name) ∧
    ∃ files2 st2,
      import_run ⟨"/Pictures", "/Movies", "/Music"⟩ false ["/src/a.jpg"]
          (init_import_state ["/Pictures/1970/1970-01/1970-01-01_000000_a.jpg"])
          [sample_media_file 0 1] = .ok (files2, st2) ∧
      st2.fs = ["/Pictures/1970/1970-01/1970-01-01_000000_a.jpg"] ∧
      st2.file_import_count = 0 ∧
      ∀ mf2 ∈ files2, mf2.file_name ≠ "archive.txt" → mf2.file_type ≠ .unknown →
        mf2.import_status = .already_exists :=
  import_rerun_idempotent ⟨"/Pictures", "/Movies", "/Music"⟩ ["/src/a.jpg"]
    ["/Pictures/1970/1970-01/1970-01-01_000000_a.jpg"] [sample_media_file 0 1]
    (by decide) (by decide) (by decide)

theorem import_run_unimport_noop (dirs : ImportDirs) (src_files : List String) :
    ∀ (files : List MediaFile) (st : ImportState),
      (∀ mf ∈ files, mf.file_path ∈ src_files) →
      (∀ mf ∈ files, mf.file_type ≠ .unknown → mf.file_name ≠ "archive.txt" →
        import_target_path ((kind_root dirs mf.file_type).getD "") mf ∉ st.fs) →
      ∃ files2, import_run dirs true src_files st files = .ok (files2, st) ∧
        files2.map MediaFile.import_status = files.map MediaFile.import_status := by
  intro files
  induction files with
  | nil => intro st _ _; exact ⟨[], rfl, rfl⟩
  | cons mf rest ih =>
    intro st hsrc habs
    obtain ⟨rest2, hrun, hstat⟩ := ih st
      (fun x hx => hsrc x (List.mem_cons_of_mem _ hx))
      (fun x hx => habs x (List.mem_cons_of_mem _ hx))
    by_cases hskip : mf.import_status = .completed ∨ mf.import_status = .already_exists ∨
        mf.import_status = .do_not_import ∨ mf.import_status = .unimported
    · refine ⟨mf :: rest2, ?_, ?_⟩
      · unfold import_run
        rw [if_pos hskip]
        simp only [hrun]
      · simp [hstat]
    · by_cases hunk : mf.file_type = .unknown
      · refine ⟨mf :: rest2, ?_, ?_⟩
        · unfold import_run
          rw [if_neg hskip, if_pos hunk]
          simp only [hrun]
        · simp [hstat]
      · by_cases hname : mf.file_name = "archive.txt"
        · refine ⟨mf :: rest2, ?_, ?_⟩
          · unfold import_run
            rw [if_neg hskip, if_neg hunk,
              import_media_file_skip_info (hsrc mf (List.mem_cons_self mf rest)) hname]
            simp only [hrun]
          · simp [hstat]
        · have hroot := kind_root_some_of_known dirs hunk
          have hfile := import_media_file_unimport_absent
            (hsrc mf (List.mem_cons_self mf rest)) hname hroot
            (habs mf (List.mem_cons_self mf rest) hunk hname)
          refine ⟨{ mf with
              import_path :=
                some (import_target_path ((kind_root dirs mf.file_type).getD "") mf) } :: rest2,
            ?_, ?_⟩
          · unfold import_run
            rw [if_neg hskip, if_neg hunk, hfile]
            simp only [hrun]
          · simp [hstat]

/-- C6: in un-import mode a media record whose target path exists has
the target deleted and its status set to unimported, while a missing
target is a no-op with no error and no status change; consequently
re-running un-import against an already un-imported destination leaves
the state and every status untouched. -/
theorem unimport_rerun_noop :
    (∀ (dirs : ImportDirs) (src_files : List String) (st : ImportState) (mf : MediaFile)
        (root : String),
        mf.file_path ∈ src_files → mf.file_name ≠ "archive.txt" →
        kind_root dirs mf.file_type = some root →
        ((import_target_path root mf ∈ st.fs →
          import_media_file dirs true src_files st mf =
            .ok ({ mf with import_path := some (import_target_path root mf),
                           import_status := .unimported },
                 { st with fs := st.fs.erase (import_target_path root mf),
                           un_imported_count := st.un_imported_count + 1 })) ∧
         (import_target_path root mf ∉ st.fs →
          import_media_file dirs true src_files st mf =
            .ok ({ mf with import_path := some (import_target_path root mf) }, st)))) ∧
    ∀ (dirs : ImportDirs) (src_files fs0 : List String) (files : List MediaFile),
      (∀ mf ∈ files, mf.file_path ∈ src_files) →
      (∀ mf ∈ files, mf.file_type ≠ .unknown → mf.file_name ≠ "archive.txt" →
        import_target_path ((kind_root dirs mf.file_type).getD "") mf ∉ fs0) →
      ∃ files2,
        import_run dirs true src_files (init_import_state fs0) files =
          .ok (files2, init_import_state fs0) ∧
        files2.map MediaFile.import_status = files.map MediaFile.import_status := by
  constructor
  · intro dirs src st mf root hsrc hname hroot
    exact ⟨fun hfs => import_media_file_unimport_present hsrc hname hroot hfs,
           fun hfs => import_media_file_unimport_absent hsrc hname hroot hfs⟩
  · intro dirs src fs0 files hsrc habs
    exact import_run_unimport_noop dirs src files (init_import_state fs0) hsrc habs

theorem unimport_rerun_noop_witness :
    ∃ files2,
      import_run ⟨"/Pictures", "/Movies", "/Music"⟩ true ["/src/a.jpg"]
        (init_import_state []) [sample_media_file 0 1] = .ok (files2, init_import_state []) ∧
      files2.map MediaFile.import_status =
        [sample_media_file 0 1].map MediaFile.import_status :=
  unimport_rerun_noop.2 ⟨"/Pictures", "/Movies", "/Music"⟩ ["/src/a.jpg"] []
    [sample_media_file 0 1] (by decide) (by decide)

theorem gpu_step_cases_not_found {root mroot : String} {ups : List String}
    {acc : List PendingUpload × List String × List String} {ci x : String}
    (h : x ∈ (gpu_step root mroot ups acc ci).2.2) :
    x ∈ acc.2.2 ∨ pyStartsWith x root = false := by
  simp only [gpu_step] at h
  split at h
  · rename_i hc
    have h2 : x ∈ acc.2.2 ++ [ci] := h
    rcases List.mem_append.mp h2 with h3 | h3
    · exact .inl h3
    · rw [List.mem_singleton.mp h3]
      right
      simpa using hc
  · split at h
    · exact .inl h
    · exact .inl h

theorem gpu_step_cases_already {root mroot : String} {ups : List String}
    {acc : List PendingUpload × List String × List String} {ci x : String}
    (h : x ∈ (gpu_step root mroot ups acc ci).2.1) :
    x ∈ acc.2.1 ∨ (pyStartsWith x root = true ∧
      posix_join mroot (pyDrop (pyLen root + 1) x) ∈ ups) := by
  simp only [gpu_step] at h
  split at h
  · exact .inl h
  · rename_i hc
    split at h
    · rename_i hmem
      have h2 : x ∈ acc.2.1 ++ [ci] := h
      rcases List.mem_append.mp h2 with h3 | h3
      · exact .inl h3
      · rw [List.mem_singleton.mp h3]
        right
        exact ⟨by simpa using hc, hmem⟩
    · exact .inl h

theorem gpu_step_cases_pending {root mroot : String} {ups : List String}
    {acc : List PendingUpload × List String × List String} {ci : String} {pu : PendingUpload}
    (h : pu ∈ (gpu_step root mroot ups acc ci).1) :
    pu ∈ acc.1 ∨ (pyStartsWith pu.import_path root = true ∧
      pu.mega_path = posix_join mroot (pyDrop (pyLen root + 1) pu.import_path) ∧
      pu.mega_path ∉ ups) := by
  simp only [gpu_step] at h
  split at h
  · exact .inl h
  · rename_i hc
    split at h
    · exact .inl h
    · rename_i hmem
      have h2 : pu ∈ acc.1 ++ [⟨ci, posix_join mroot (pyDrop (pyLen root + 1) ci)⟩] := h
      rcases List.mem_append.mp h2 with h3 | h3
      · exact .inl h3
      · rw [List.mem_singleton.mp h3]
        right
        exact ⟨by simpa using hc, rfl, hmem⟩

theorem gpu_step_flatten_perm (root mroot : String) (ups : List String)
    (acc : List PendingUpload × List String × List String) (ci : String) :
    List.Perm
      ((gpu_step root mroot ups acc ci).1.map PendingUpload.import_path ++
        (gpu_step root mroot ups acc ci).2.1 ++ (gpu_step root mroot ups acc ci).2.2)
      ((acc.1.map PendingUpload.import_path ++ acc.2.1 ++ acc.2.2) ++ [ci]) := by
  simp only [gpu_step]
  split
  · simp only [List.append_assoc]
    exact List.Perm.refl _
  · split
    · simp only [List.append_assoc, List.singleton_append]
      exact List.Perm.append_left _
        (List.Perm.append_left _ (List.perm_append_singleton _ _).symm)
    · simp only [List.map_append, List.map_cons, List.map_nil, List.append_assoc,
        List.singleton_append]
      exact List.Perm.append_left _
        ((List.perm_append_singleton _ _).symm.trans (by simp))

theorem gpu_fold_spec (root mroot : String) (ups : List String) :
    ∀ (imps : List String) (acc : List PendingUpload × List String × List String),
      List.Perm
        ((imps.foldl (gpu_step root mroot ups) acc).1.map PendingUpload.import_path ++
          (imps.foldl (gpu_step root mroot ups) acc).2.1 ++
          (imps.foldl (gpu_step root mroot ups) acc).2.2)
        ((acc.1.map PendingUpload.import_path ++ acc.2.1 ++ acc.2.2) ++ imps) ∧
      (∀ ci ∈ (imps.foldl (gpu_step root mroot ups) acc).2.2,
        ci ∈ acc.2.2 ∨ pyStartsWith ci root = false) ∧
      (∀ ci ∈ (imps.foldl (gpu_step root mroot ups) acc).2.1,
        ci ∈ acc.2.1 ∨ (pyStartsWith ci root = true ∧
          posix_join mroot (pyDrop (pyLen root + 1) ci) ∈ ups)) ∧
      (∀ pu ∈ (imps.foldl (gpu_step root mroot ups) acc).1,
        pu ∈ acc.1 ∨ (pyStartsWith pu.import_path root = true ∧
          pu.mega_path = posix_join mroot (pyDrop (pyLen root + 1) pu.import_path) ∧
          pu.mega_path ∉ ups)) := by
  intro imps
  induction imps with
  | nil =>
    intro acc
    exact ⟨by simp, fun ci h => .inl h, fun ci h => .inl h, fun pu h => .inl h⟩
  | cons ci rest ih =>
    intro acc
    rw [List.foldl_cons]
    obtain ⟨ihp, ihn, iha, ihpd⟩ := ih (gpu_step root mroot ups acc ci)
    refine ⟨?_, ?_, ?_, ?_⟩
    · refine ihp.trans ?_
      simpa using (gpu_step_flatten_perm root mroot ups acc ci).append_right rest
    · intro x hx
      rcases ihn x hx with h | h
      · exact gpu_step_cases_not_found h
      · exact .inr h
    · intro x hx
      rcases iha x hx with h | h
      · exact gpu_step_cases_already h
      · exact .inr h
    · intro pu hpu
      rcases ihpd pu hpu with h | h
      · exact gpu_step_cases_pending h
      · exact .inr h

/-- The SyncReconciler scenario inputs: ten completed-import paths of
which three already appear in the remote ledger as uploaded, two carry a
foreign prefix, and five are pending. -/
def mega_scenario_imports : List String :=
  ["/imports/a1.jpg", "/imports/a2.jpg", "/imports/a3.jpg",
   "/other/f1.jpg", "/other/f2.jpg",
   "/imports/p1.jpg", "/imports/p2.jpg", "/imports/p3.jpg", "/imports/p4.jpg",
   "/imports/p5.jpg"]

/-- The remote ledger content at the start of the scenario. -/
def mega_scenario_uploads : List String :=
  ["/mega/a1.jpg", "/mega/a2.jpg", "/mega/a3.jpg"]

/-- The external tool behaviour in the scenario: the p2 path already
exists remotely, the p5 upload fails on every attempt and exhausts the
retry ceiling, and everything else probes absent and uploads cleanly. -/
def mega_scenario_remote : MegaRemote where
  ls_result := fun p _ => .ok (p == "/mega/p2.jpg")
  put_result := fun p _ => if p == "/mega/p5.jpg" then .error () else .ok ()

/-- C9: get_pending_uploads partitions every completed import into
exactly one of foreign (prefix mismatch), already uploaded (computed
remote path in the ledger), or pending; and on the concrete scenario of
ten completed imports (three already uploaded, two foreign, five
pending of which one exhausts its retry ceiling) the sync run returns
exactly one failure and persists a ledger holding exactly the original
three entries plus the four newly confirmed remote paths. -/
theorem sync_reconciler_partition_and_scenario :
    (∀ (media_import_root mega_root : String)
        (completed_uploads completed_imports : List String)
        (pend : List PendingUpload) (already not_found : List String),
      get_pending_uploads media_import_root mega_root completed_uploads completed_imports =
        .ok (pend, already, not_found) →
      List.Perm (pend.map PendingUpload.import_path ++ already ++ not_found)
        completed_imports ∧
      (∀ ci ∈ not_found, pyStartsWith ci media_import_root = false) ∧
      (∀ ci ∈ already, pyStartsWith ci media_import_root = true ∧
        posix_join mega_root (pyDrop (pyLen media_import_root + 1) ci) ∈ completed_uploads) ∧
      (∀ pu ∈ pend, pyStartsWith pu.import_path media_import_root = true ∧
        pu.mega_path =
          posix_join mega_root (pyDrop (pyLen media_import_root + 1) pu.import_path) ∧
        pu.mega_path ∉ completed_uploads)) ∧
    sync_mantis_imports "/imports" "/mega" mega_scenario_remote
        mega_scenario_imports mega_scenario_uploads =
      .ok ([⟨"/imports/p5.jpg", "/mega/p5.jpg"⟩],
           mega_scenario_uploads ++
             ["/mega/p1.jpg", "/mega/p2.jpg", "/mega/p3.jpg", "/mega/p4.jpg"]) ∧
    mega_scenario_imports.length = 10 ∧
    ([(⟨"/imports/p5.jpg", "/mega/p5.jpg"⟩ : PendingUpload)] : List PendingUpload).length = 1 ∧
    (["/mega/p1.jpg", "/mega/p2.jpg", "/mega/p3.jpg", "/mega/p4.jpg"] : List String).length = 4 := by
  refine ⟨?_, rfl, rfl, rfl, rfl⟩
  intro root mroot ups imps pend already not_found hrun
  simp only [get_pending_uploads] at hrun
  split at hrun
  · exact Except.noConfusion hrun
  · replace hrun := Except.ok.inj hrun
    obtain ⟨hspec, hn, ha, hp⟩ := gpu_fold_spec root mroot ups imps ([], [], [])
    rw [hrun] at hspec hn ha hp
    refine ⟨?_, ?_, ?_, ?_⟩
    · simpa using hspec
    · intro ci hci
      rcases hn ci hci with h | h
      · exact absurd h (List.not_mem_nil ci)
      · exact h
    · intro ci hci
      rcases ha ci hci with h | h
      · exact absurd h (List.not_mem_nil ci)
      · exact h
    · intro pu hpu
      rcases hp pu hpu with h | h
      · exact absurd h (List.not_mem_nil pu)
      · exact h

theorem sync_reconciler_partition_witness :
    List.Perm
      (([⟨"/imports/p1.jpg", "/mega/p1.jpg"⟩, ⟨"/imports/p2.jpg", "/mega/p2.jpg"⟩,
         ⟨"/imports/p3.jpg", "/mega/p3.jpg"⟩, ⟨"/imports/p4.jpg", "/mega/p4.jpg"⟩,
         ⟨"/imports/p5.jpg", "/mega/p5.jpg"⟩] : List PendingUpload).map
          PendingUpload.import_path ++
        ["/imports/a1.jpg", "/imports/a2.jpg", "/imports/a3.jpg"] ++
        ["/other/f1.jpg", "/other/f2.jpg"])
      mega_scenario_imports ∧
    (∀ ci ∈ (["/other/f1.jpg", "/other/f2.jpg"] : List String),
      pyStartsWith ci "/imports" = false) ∧
    (∀ ci ∈ (["/imports/a1.jpg", "/imports/a2.jpg", "/imports/a3.jpg"] : List String),
      pyStartsWith ci "/imports" = true ∧
      posix_join "/mega" (pyDrop (pyLen "/imports" + 1) ci) ∈ mega_scenario_uploads) ∧
    (∀ pu ∈ ([⟨"/imports/p1.jpg", "/mega/p1.jpg"⟩, ⟨"/imports/p2.jpg", "/mega/p2.jpg"⟩,
         ⟨"/imports/p3.jpg", "/mega/p3.jpg"⟩, ⟨"/imports/p4.jpg", "/mega/p4.jpg"⟩,
         ⟨"/imports/p5.jpg", "/mega/p5.jpg"⟩] : List PendingUpload),
      pyStartsWith pu.import_path "/imports" = true ∧
      pu.mega_path = posix_join "/mega" (pyDrop (pyLen "/imports" + 1) pu.import_path) ∧
      pu.mega_path ∉ mega_scenario_uploads) :=
  sync_reconciler_partition_and_scenario.1 "/imports" "/mega"
    mega_scenario_uploads mega_scenario_imports
    [⟨"/imports/p1.jpg", "/mega/p1.jpg"⟩, ⟨"/imports/p2.jpg", "/mega/p2.jpg"⟩,
     ⟨"/imports/p3.jpg", "/mega/p3.jpg"⟩, ⟨"/imports/p4.jpg", "/mega/p4.jpg"⟩,
     ⟨"/imports/p5.jpg", "/mega/p5.jpg"⟩]
    ["/imports/a1.jpg", "/imports/a2.jpg", "/imports/a3.jpg"]
    ["/other/f1.jpg", "/other/f2.jpg"] rfl

end Mediamantis
